import Mathlib

/-!
Shallow embedding of the delivery-analytics backend (NovobRom/delivery-analytics):
the field parsers and bulk-import loops of src/backend/routers/data_ingestion.py,
the bulk imports of src/backend/routers/deliveries.py and
src/backend/routers/courier_performance.py, the pydantic validators of
src/backend/models/delivery.py, and the aggregation/compare endpoints of
src/backend/routers/analytics.py.  Python floats are modelled as rationals,
dates as naturals ordered like ISO date strings, store ids as naturals
standing for the nonempty (hence truthy) UUID strings the store returns.
-/

namespace DeliveryAnalytics

/-- Models Python str.replace on character lists: every non-overlapping
occurrence of the pattern is replaced, scanning left to right.  The fuel
argument (instantiated with the list length, which bounds the number of
scanning steps) only makes the recursion structural so that the kernel can
evaluate it; all call sites pass a nonempty pattern, so each step consumes
at least one character. -/
def replaceListGo (pat rep : List Char) : ℕ → List Char → List Char
  | 0, l => l
  | fuel + 1, l =>
      match l with
      | [] => []
      | c :: cs =>
          if pat.isPrefixOf (c :: cs) ∧ pat ≠ [] then
            rep ++ replaceListGo pat rep fuel (cs.drop (pat.length - 1))
          else
            c :: replaceListGo pat rep fuel cs

/-- Models Python str.replace. -/
def pyReplace (s pat rep : String) : String :=
  ⟨replaceListGo pat.toList rep.toList s.toList.length s.toList⟩

/-- Models Python str.strip with no argument: leading and trailing
whitespace removed. -/
def pyStrip (s : String) : String :=
  ⟨((s.toList.dropWhile Char.isWhitespace).reverse.dropWhile Char.isWhitespace).reverse⟩

/-- Models Python str.lower on the ASCII names appearing here. -/
def pyLower (s : String) : String :=
  ⟨s.toList.map Char.toLower⟩

/-- A Python scalar cell value as the ingestion helpers see it: a missing
value (None, or a float NaN — both detected by pd.isna), a number, or a
string. -/
inductive PyValue where
  | missing
  | num (q : ℚ)
  | str (s : String)
deriving DecidableEq

/-- Digit list to natural number, most significant first. -/
def digitsVal (ds : List Char) : ℕ :=
  ds.foldl (fun a c => a * 10 + (c.toNat - 48)) 0

/-- Parse the signed integer exponent after the e of a float literal. -/
def parseExp (cs : List Char) : Option ℤ :=
  match cs with
  | '+' :: ds =>
      if ds.isEmpty || !ds.all Char.isDigit then none else some (digitsVal ds)
  | '-' :: ds =>
      if ds.isEmpty || !ds.all Char.isDigit then none else some (-(digitsVal ds : ℤ))
  | ds =>
      if ds.isEmpty || !ds.all Char.isDigit then none else some (digitsVal ds)

/-- Parse the mantissa of a float literal (decimal digits with at most one
point and at least one digit) into integer-part value, fractional-part value
and fractional-digit count. -/
def parseMantissaParts (cs : List Char) : Option (ℕ × ℕ × ℕ) :=
  let ip := cs.takeWhile (fun c => c ≠ '.')
  match cs.dropWhile (fun c => c ≠ '.') with
  | [] =>
      if ip.isEmpty || !ip.all Char.isDigit then none
      else some (digitsVal ip, 0, 0)
  | _ :: fp =>
      if (ip.isEmpty && fp.isEmpty) || !ip.all Char.isDigit || !fp.all Char.isDigit then none
      else some (digitsVal ip, digitsVal fp, fp.length)

/-- The syntactic parts of a Python float literal: sign, mantissa parts,
exponent. -/
def pyFloatParts (s : String) : Option (Bool × (ℕ × ℕ × ℕ) × ℤ) :=
  let signAndRest : Bool × List Char :=
    match s.toList with
    | '-' :: r => (false, r)
    | '+' :: r => (true, r)
    | r => (true, r)
  let pos := signAndRest.1
  let cs := signAndRest.2
  let mant := cs.takeWhile (fun c => c ≠ 'e' && c ≠ 'E')
  match cs.dropWhile (fun c => c ≠ 'e' && c ≠ 'E') with
  | [] => (parseMantissaParts mant).map (fun m => (pos, m, 0))
  | _ :: ePart =>
      match parseMantissaParts mant, parseExp ePart with
      | some m, some e => some (pos, m, e)
      | _, _ => none

/-- The rational value of a parsed float literal. -/
def assembleFloat (pos : Bool) (m : ℕ × ℕ × ℕ) (e : ℤ) : ℚ :=
  (if pos then 1 else -1) * ((m.1 : ℚ) + (m.2.1 : ℚ) / (10 : ℚ) ^ m.2.2) *
    (if 0 ≤ e then ((10 : ℚ) ^ e.toNat) else 1 / (10 : ℚ) ^ (-e).toNat)

/-- Models the Python builtin float applied to an already-stripped string:
optional sign, decimal digits with at most one point, optional e-exponent.
Exotic accepted spellings (inf, nan, underscore digit grouping) are not
modelled; on those this returns none as for any other unparsable string —
no theorem below evaluates it on such input. -/
def pyFloat (s : String) : Option ℚ :=
  (pyFloatParts s).map (fun p => assembleFloat p.1 p.2.1 p.2.2)

/-- The cleaning parse_float applies to a string cell before parsing:
decimal comma to point, the EUR currency marker and percent signs removed,
surrounding whitespace stripped (each replace rewrites every occurrence,
as Python str.replace does). -/
def cleanNumericStr (s : String) : String :=
  pyStrip (pyReplace (pyReplace (pyReplace s "," ".") " EUR" "") "%" "")

/-- Embeds parse_float of src/backend/routers/data_ingestion.py: missing or
empty input gives 0.0, numeric input passes through, a string is cleaned and
parsed with 0.0 as the fallback for unparsable text. -/
def parse_float : PyValue → ℚ
  | .missing => 0
  | .num q => q
  | .str s =>
      if s = "" then 0
      else
        match pyFloat (cleanNumericStr s) with
        | some q => q
        | none => 0

/-- The success-rate expression shared by the deliveries listing
(src/backend/routers/deliveries.py line 65) and the courier statistics
(src/backend/routers/analytics.py line 190): delivered / loaded * 100 when
loaded is positive, else 0.  The division is only taken when loaded > 0, so
in the rational model the value is always a finite rational — mirroring that
the float code never divides by zero and hence never produces NaN or
infinity here. -/
def successRate (delivered loaded : ℚ) : ℚ :=
  if loaded > 0 then delivered / loaded * 100 else 0

/-- Models the Python round(x, 2): scale by 100, round half to even,
unscale.  (CPython rounds the nearest binary double; on the exact values
appearing in the theorems below the two agree.) -/
def round2 (q : ℚ) : ℚ :=
  let c := q * 100
  let f : ℤ := Int.floor c
  let r := c - (f : ℚ)
  let n : ℤ :=
    if r < 1 / 2 then f
    else if 1 / 2 < r then f + 1
    else if f % 2 = 0 then f else f + 1
  (n : ℚ) / 100

/-- Embeds the delivered_not_more_than_loaded validator of DeliveryBase
(src/backend/models/delivery.py lines 12-18): pydantic hands it the
already-validated field data, in which loaded_count appears only if its own
ge-0 check passed; the validator reads it with default 0 and raises when
delivered_count exceeds it. -/
def delivered_not_more_than_loaded (loadedData : Option ℤ) (v : ℤ) : Bool :=
  decide (v ≤ loadedData.getD 0)

/-- Whether constructing a DeliveryBase (hence a DeliveryCreate) with the
given counts passes validation: both Field(ge=0) checks plus the cross-field
validator. -/
def DeliveryBase.accepts (loaded delivered : ℤ) : Bool :=
  decide (0 ≤ loaded) && decide (0 ≤ delivered) &&
    delivered_not_more_than_loaded (if 0 ≤ loaded then some loaded else none) delivered

/-- Whether constructing a DeliveryImport bulk-import row with the given
counts passes validation: the model (src/backend/models/delivery.py lines
55-62) declares only Field(ge=0) on each count and no cross-field
validator. -/
def DeliveryImport.accepts (loaded delivered : ℤ) : Bool :=
  decide (0 ≤ loaded) && decide (0 ≤ delivered)

/-- Embeds calc_change of compare_periods (src/backend/routers/analytics.py
lines 343-346): percentage change with the zero-baseline rule. -/
def calc_change (old new : ℚ) : ℚ :=
  if old = 0 then (if new > 0 then 100 else 0)
  else round2 ((new - old) / old * 100)

/-- The period statistics get_period_summary returns. -/
structure PeriodStats where
  total_loaded : ℚ
  total_delivered : ℚ
  success_rate : ℚ
  active_couriers : ℚ
  delivery_days : ℚ
  undelivered : ℚ
deriving DecidableEq

/-- Modelled from the spec: the get_period_stats stored database function
called by get_period_summary is not under src/ (only its caller is).  The
spec defines period stats as the sums of loaded and delivered, success rate
delivered/loaded*100 (0 when loaded = 0), distinct active couriers and
distinct delivery days; undelivered = loaded - delivered is computed by the
caller, which is in src.  Given the period totals this builds the
PeriodStats that get_period_summary returns. -/
def periodStatsOf (loaded delivered couriers days : ℚ) : PeriodStats :=
  { total_loaded := loaded
    total_delivered := delivered
    success_rate := successRate delivered loaded
    active_couriers := couriers
    delivery_days := days
    undelivered := loaded - delivered }

/-- The changes dictionary of the period comparison. -/
structure PeriodChanges where
  loaded_change : ℚ
  delivered_change : ℚ
  success_rate_change : ℚ
  couriers_change : ℚ
deriving DecidableEq

/-- Embeds the changes computation of compare_periods
(src/backend/routers/analytics.py lines 359-364). -/
def compare_changes (stats1 stats2 : PeriodStats) : PeriodChanges :=
  { loaded_change := calc_change stats1.total_loaded stats2.total_loaded
    delivered_change := calc_change stats1.total_delivered stats2.total_delivered
    success_rate_change := round2 (stats2.success_rate - stats1.success_rate)
    couriers_change := calc_change stats1.active_couriers stats2.active_couriers }

/-- The outcome of constructing the pydantic import model from one
spreadsheet row, abstracted to what the import loop observes of the
try/except: success, or an exception with its message. -/
inductive RowBuild where
  | ok
  | exn (msg : String)
deriving DecidableEq

/-- One source spreadsheet row as the two ingestion loops see it: the raw
key cell (the Shipment-number column, already passed through str) and the
outcome of building the pydantic import model from the remaining cells. -/
structure SrcRow where
  shipment_number : String
  build : RowBuild
deriving DecidableEq

/-- The accumulator of the ingestion row loops: indices of the rows parsed
into records (standing for the record dicts, in list order), the error
strings, and the skip counter. -/
structure RowAcc where
  records : List ℕ
  errors : List String
  skipped : ℕ
deriving DecidableEq

/-- Embeds the row loop shared by import_shipments and import_events
(src/backend/routers/data_ingestion.py lines 90-132 and 179-219), started
at dataframe index i: a row whose stripped key is empty or the literal nan
is skipped; a row whose model construction raises is recorded as a
Row-tagged error (index + 2) and also counted in skipped; otherwise the
record is kept.  One row's outcome never stops the recursion over the
remaining rows. -/
def ingestRowsFrom : ℕ → List SrcRow → RowAcc
  | _, [] => ⟨[], [], 0⟩
  | i, row :: rows =>
      let rest := ingestRowsFrom (i + 1) rows
      let key := pyStrip row.shipment_number
      if key = "" || key = "nan" then
        { rest with skipped := rest.skipped + 1 }
      else
        match row.build with
        | .ok => { rest with records := i :: rest.records }
        | .exn msg =>
            { rest with
                errors := ("Row " ++ toString (i + 2) ++ ": " ++ msg) :: rest.errors,
                skipped := rest.skipped + 1 }

/-- The full row scan, from dataframe index 0. -/
def ingestRows (rows : List SrcRow) : RowAcc :=
  ingestRowsFrom 0 rows

/-- Consecutive chunks of at most n elements, as the range-stride batching
loops slice the record list.  The fuel argument (instantiated with the list
length, an upper bound on the number of chunks) only makes the recursion
structural; all call sites use n ≥ 1. -/
def chunksOfGo (n : ℕ) : ℕ → List α → List (List α)
  | _, [] => []
  | 0, l => [l]
  | fuel + 1, x :: xs => (x :: xs.take (n - 1)) :: chunksOfGo n fuel (xs.drop (n - 1))

/-- Chunks of at most n elements of l, in order. -/
def chunksOf (n : ℕ) (l : List α) : List (List α) :=
  chunksOfGo n l.length l

/-- Embeds the unguarded persistence loop of import_shipments
(src/backend/routers/data_ingestion.py lines 134-141): the chunks are
upserted in order with no per-chunk exception handling, so the first store
failure raises out of the loop.  The oracle gives the store outcome of the
k-th persistence call (none = success).  Returns the chunks committed
before any failure, and the raised message if a call failed (later chunks
are then never attempted). -/
def persistNoCatch (fail : ℕ → Option String) :
    ℕ → List (List ℕ) → List (List ℕ) × Option String
  | _, [] => ([], none)
  | k, c :: cs =>
      match fail k with
      | some msg => ([], some msg)
      | none =>
          let r := persistNoCatch fail (k + 1) cs
          (c :: r.1, r.2)

/-- Embeds the guarded persistence loop of import_events
(src/backend/routers/data_ingestion.py lines 232-238): each chunk insert is
wrapped in try/except, a failure appending a batch error and the loop
continuing with the next chunk.  Returns the committed chunks and the batch
error strings, both in order. -/
def persistCatch (fail : ℕ → Option String) :
    ℕ → List (List ℕ) → List (List ℕ) × List String
  | _, [] => ([], [])
  | k, c :: cs =>
      let r := persistCatch fail (k + 1) cs
      match fail k with
      | some msg => (r.1, ("Batch insert error: " ++ msg) :: r.2)
      | none => (c :: r.1, r.2)

/-- The ImportResult response model (src/backend/models/delivery.py lines
65-71). -/
structure ImportResult where
  success : Bool
  total_records : ℕ
  imported_records : ℕ
  skipped_records : ℕ
  errors : List String
deriving DecidableEq

/-- Embeds import_shipments (src/backend/routers/data_ingestion.py lines
64-151), with the spreadsheet already decoded into rows: the row loop, the
unguarded 500-per-chunk upsert, and the result construction.  A store
failure escapes the route body, which answers HTTP 500 instead of an
ImportResult; this is the Except.error case.  The second component is the
list of chunks committed to the shipments table. -/
def import_shipments (fail : ℕ → Option String) (rows : List SrcRow) :
    Except String ImportResult × List (List ℕ) :=
  let acc := ingestRows rows
  let p := persistNoCatch fail 0 (chunksOf 500 acc.records)
  match p.2 with
  | some msg => (Except.error msg, p.1)
  | none =>
      (Except.ok
        { success := acc.errors.isEmpty
          total_records := rows.length
          imported_records := acc.records.length
          skipped_records := acc.skipped
          errors := acc.errors.take 10 },
       p.1)

/-- Embeds import_events (src/backend/routers/data_ingestion.py lines
158-249): the same row loop, but every 500-record chunk insert is guarded,
a failing chunk adding a batch error while the loop continues, and the call
always returns a result (imported_records counts parsed records whether or
not a chunk failed, as the source comments note).  The second component is
the list of chunks committed to the delivery_events table. -/
def import_events (fail : ℕ → Option String) (rows : List SrcRow) :
    ImportResult × List (List ℕ) :=
  let acc := ingestRows rows
  let p := persistCatch fail 0 (chunksOf 500 acc.records)
  let errs := acc.errors ++ p.2
  ({ success := errs.isEmpty
     total_records := rows.length
     imported_records := acc.records.length
     skipped_records := acc.skipped
     errors := errs.take 10 },
   p.1)

/-- A DeliveryImport bulk-import record (src/backend/models/delivery.py
lines 55-62), already validated by pydantic. -/
structure DeliveryImport where
  delivery_date : ℕ
  courier_name : String
  vehicle_number : Option String
  zone_name : String
  loaded_count : ℤ
  delivered_count : ℤ
deriving DecidableEq

/-- Python dict lookup for a name-to-id index built by comprehension:
the last binding of a key wins. -/
def dictGet (m : List (String × ℕ)) (k : String) : Option ℕ :=
  (m.reverse.find? (fun p => p.1 == k)).map Prod.snd

/-- The keys absent from the index, in first-occurrence order: the keys of
new_couriers_dict (its later rebindings change only the stored spelling,
not the key set or order), and likewise the missing zone keys. -/
def newKeys (m : List (String × ℕ)) (ks : List String) : List String :=
  ks.foldl (fun acc k =>
    if (dictGet m k).isSome || acc.contains k then acc else acc ++ [k]) []

/-- Embeds steps 1-2 of import_deliveries
(src/backend/routers/deliveries.py lines 194-219) on the success path of
the store: the missing entity names are bulk-inserted and the rows the
store returns are merged into the fetched name-to-id index under their
lowercased names.  Fresh sequential ids from base stand for the UUIDs the
store generates (any ids work: the import only ever looks entities up by
name).  ks is the list of the records' lowercased stripped names. -/
def resolveMap (existing : List (String × ℕ)) (ks : List String) (base : ℕ) :
    List (String × ℕ) :=
  existing ++ (List.enumFrom 0 (newKeys existing ks)).map (fun p => (p.2, base + p.1))

/-- A delivery row prepared for upsert (step 3 of import_deliveries). -/
structure UpsertRec where
  delivery_date : ℕ
  courier_id : ℕ
  zone_id : ℕ
  loaded_count : ℤ
  delivered_count : ℤ
deriving DecidableEq

/-- The outcome of the record-mapping loop of import_deliveries. -/
structure MapResult where
  upserts : List UpsertRec
  skipped : ℕ
  errors : List String
deriving DecidableEq

/-- Embeds step 3 of import_deliveries (src/backend/routers/deliveries.py
lines 221-237), from record index i: each record's courier and zone names
are looked up in the resolved maps (store ids are nonempty UUID strings,
always truthy, so the Python truthiness test is modelled as both lookups
succeeding); a record that fails to map is counted skipped and recorded as
a Row-tagged error with index + 1 — no header-row shift. -/
def mapDeliveriesFrom (courier_map zone_map : List (String × ℕ)) :
    ℕ → List DeliveryImport → MapResult
  | _, [] => ⟨[], 0, []⟩
  | i, r :: rs =>
      let rest := mapDeliveriesFrom courier_map zone_map (i + 1) rs
      match dictGet courier_map (pyLower (pyStrip r.courier_name)),
            dictGet zone_map (pyLower (pyStrip r.zone_name)) with
      | some cid, some zid =>
          { rest with
              upserts :=
                { delivery_date := r.delivery_date
                  courier_id := cid
                  zone_id := zid
                  loaded_count := r.loaded_count
                  delivered_count := r.delivered_count } :: rest.upserts }
      | _, _ =>
          { rest with
              skipped := rest.skipped + 1,
              errors :=
                ("Row " ++ toString (i + 1) ++ ": Failed to map courier or zone")
                  :: rest.errors }

/-- The record-mapping loop from index 0. -/
def mapDeliveries (courier_map zone_map : List (String × ℕ))
    (records : List DeliveryImport) : MapResult :=
  mapDeliveriesFrom courier_map zone_map 0 records

/-- Embeds import_deliveries (src/backend/routers/deliveries.py lines
156-270) on the success path of the store (fetches, entity inserts and
chunk upserts all succeed; a store exception instead escapes the route,
which answers an HTTP error and returns no ImportResult): entity
resolution, record mapping, 1000-per-chunk upsert with imported counting
each chunk's length, and the result with the error list capped at 10. -/
def import_deliveries (existingCouriers existingZones : List (String × ℕ))
    (records : List DeliveryImport) : ImportResult :=
  let courier_map :=
    resolveMap existingCouriers (records.map (fun r => pyLower (pyStrip r.courier_name))) 1
  let zone_map :=
    resolveMap existingZones (records.map (fun r => pyLower (pyStrip r.zone_name))) 1
  let m := mapDeliveries courier_map zone_map records
  let imported := ((chunksOf 1000 m.upserts).map List.length).sum
  { success := m.errors.isEmpty
    total_records := records.length
    imported_records := imported
    skipped_records := m.skipped
    errors := m.errors.take 10 }

/-- One record of the courier-performance bulk import, abstracted to the
outcome of its guarded model_dump call. -/
structure PerfRow where
  dump : RowBuild
deriving DecidableEq

/-- The fields of the ImportSummary response relevant here
(src/backend/models/import_log.py lines 55-65); completed is the
COMPLETED/FAILED status. -/
structure ImportSummary where
  total_records : ℕ
  imported : ℕ
  failed : ℕ
  completed : Bool
  errors : List String
deriving DecidableEq

/-- The per-row loop of the courier-performance bulk import
(src/backend/routers/courier_performance.py lines 109-115), from index i:
Row-tagged (index + 1) errors for rows whose dump raises, and the count of
rows prepared for insert. -/
def perfRowErrorsFrom : ℕ → List PerfRow → List String × ℕ
  | _, [] => ([], 0)
  | i, r :: rs =>
      let rest := perfRowErrorsFrom (i + 1) rs
      match r.dump with
      | .ok => (rest.1, rest.2 + 1)
      | .exn msg => (("Row " ++ toString (i + 1) ++ ": " ++ msg) :: rest.1, rest.2)

/-- Embeds the courier-performance bulk_import
(src/backend/routers/courier_performance.py lines 90-142): the guarded
per-row loop, one single guarded bulk insert of all prepared records
(insertFail is its store outcome; on success the store returns the inserted
rows, so imported is their count), and the returned summary, whose errors
field is the full error list — uncapped. -/
def bulk_import (insertFail : Option String) (rows : List PerfRow) : ImportSummary :=
  let pe := perfRowErrorsFrom 0 rows
  let ins : ℕ × List String :=
    if pe.2 = 0 then (0, [])
    else
      match insertFail with
      | none => (pe.2, [])
      | some msg => (0, ["Bulk insert error: " ++ msg])
  let errs := pe.1 ++ ins.2
  { total_records := rows.length
    imported := ins.1
    failed := errs.length
    completed := errs.isEmpty
    errors := errs }

/-- One deliveries row as get_courier_stats fetches it
(src/backend/routers/analytics.py lines 150-154): courier id, counts and
the delivery date (dates ordered as their ISO strings are). -/
structure DeliveryRow where
  courier_id : ℕ
  loaded_count : ℤ
  delivered_count : ℤ
  delivery_date : ℕ
deriving DecidableEq

/-- The per-courier accumulator dict value of get_courier_stats. -/
structure CStat where
  total_deliveries : ℕ
  total_loaded : ℤ
  total_delivered : ℤ
  first_delivery : ℕ
  last_delivery : ℕ
deriving DecidableEq

/-- The zero-count entry a freshly seen courier is initialized to
(first and last delivery set to the current row's date). -/
def initStat (d : DeliveryRow) : CStat :=
  { total_deliveries := 0
    total_loaded := 0
    total_delivered := 0
    first_delivery := d.delivery_date
    last_delivery := d.delivery_date }

/-- One aggregation step of get_courier_stats (lines 172-178): bump the
counters and widen the first/last delivery window. -/
def stepStat (d : DeliveryRow) (s : CStat) : CStat :=
  { total_deliveries := s.total_deliveries + 1
    total_loaded := s.total_loaded + d.loaded_count
    total_delivered := s.total_delivered + d.delivered_count
    first_delivery :=
      if d.delivery_date < s.first_delivery then d.delivery_date else s.first_delivery
    last_delivery :=
      if d.delivery_date > s.last_delivery then d.delivery_date else s.last_delivery }

/-- Update of the stats dict for one delivery row: the entry for the row's
courier is stepped in place, a missing courier appended (dict insertion
order), exactly as the Python dict behaves. -/
def statsUpdate (d : DeliveryRow) : List (ℕ × CStat) → List (ℕ × CStat)
  | [] => [(d.courier_id, stepStat d (initStat d))]
  | (k, s) :: rest =>
      if k = d.courier_id then (k, stepStat d s) :: rest
      else (k, s) :: statsUpdate d rest

/-- The stats dict after aggregating all fetched delivery rows. -/
def aggStats (ds : List DeliveryRow) : List (ℕ × CStat) :=
  ds.foldl (fun acc d => statsUpdate d acc) []

/-- A row of the couriers master table. -/
structure Courier where
  id : ℕ
  full_name : String
  vehicle_number : Option String
deriving DecidableEq

/-- The courier_map dict of get_courier_stats (line 158), keyed by id; the
last binding of an id wins, as in a Python dict comprehension. -/
def courierLookup (cs : List Courier) (cid : ℕ) : Option Courier :=
  cs.reverse.find? (fun c => c.id == cid)

/-- The CourierStats response model (fields as built at lines 192-202). -/
structure CourierStats where
  id : ℕ
  full_name : String
  vehicle_number : Option String
  total_deliveries : ℕ
  total_loaded : ℤ
  total_delivered : ℤ
  success_rate : ℚ
  first_delivery : ℕ
  last_delivery : ℕ
deriving DecidableEq

/-- Embeds the response-building loop of get_courier_stats (lines
181-202): entries under the minimum-deliveries threshold or without a
master-table courier are dropped, the rest carry the courier's name and the
rounded success rate. -/
def buildCourierStats (couriers : List Courier) (min_deliveries : ℕ) :
    List (ℕ × CStat) → List CourierStats
  | [] => []
  | (cid, s) :: rest =>
      if s.total_deliveries < min_deliveries then
        buildCourierStats couriers min_deliveries rest
      else
        match courierLookup couriers cid with
        | none => buildCourierStats couriers min_deliveries rest
        | some c =>
            { id := cid
              full_name := c.full_name
              vehicle_number := c.vehicle_number
              total_deliveries := s.total_deliveries
              total_loaded := s.total_loaded
              total_delivered := s.total_delivered
              success_rate := round2 (successRate (s.total_delivered : ℚ) (s.total_loaded : ℚ))
              first_delivery := s.first_delivery
              last_delivery := s.last_delivery }
              :: buildCourierStats couriers min_deliveries rest

/-- Insert into a sorted list, before the first element not le-above x:
the insertion step of a stable sort. -/
def stableInsert (le : α → α → Bool) (x : α) : List α → List α
  | [] => [x]
  | y :: ys => if le x y then x :: y :: ys else y :: stableInsert le x ys

/-- Stable insertion sort.  Python's list.sort is stable, and every stable
sort computes the same list, so this models result.sort(...) exactly. -/
def stableSort (le : α → α → Bool) : List α → List α
  | [] => []
  | x :: xs => stableInsert le x (stableSort le xs)

/-- Embeds get_courier_stats (src/backend/routers/analytics.py lines
138-208) after the two fetches: deliveries is the date-filtered rows the
store returned for the window, couriers the master table.  Aggregation,
filtering, and the stable descending sort by success rate (reverse=True). -/
def get_courier_stats (deliveries : List DeliveryRow) (couriers : List Courier)
    (min_deliveries : ℕ) : List CourierStats :=
  stableSort (fun a b => decide (b.success_rate ≤ a.success_rate))
    (buildCourierStats couriers min_deliveries (aggStats deliveries))

/-- First-match association lookup, the Python dict access on the stats
accumulator (whose keys are unique by construction). -/
def assocFind (acc : List (ℕ × CStat)) (cid : ℕ) : Option CStat :=
  (acc.find? (fun p => p.1 == cid)).map Prod.snd

/-- The statistics of one courier's rows (first row d, later rows rest, in
fetch order): what the aggregation dict holds for that courier. -/
def statOfRows (d : DeliveryRow) (rest : List DeliveryRow) : CStat :=
  rest.foldl (fun s x => stepStat x s) (stepStat d (initStat d))

/-- The stats-dict value the aggregation of get_courier_stats associates to
each courier id: none when the courier has no row, else the fold of its
rows in order. -/
def filterStat (ds : List DeliveryRow) (cid : ℕ) : Option CStat :=
  match ds.filter (fun d => d.courier_id == cid) with
  | [] => none
  | d :: rest => some (statOfRows d rest)

/-- The courier-statistics entry produced by one delivery row of courier 1
(10 loaded, 5 delivered, date 3) with courier 1 in the master table. -/
def c10entry : CourierStats :=
  { id := 1
    full_name := "A"
    vehicle_number := none
    total_deliveries := 1
    total_loaded := 10
    total_delivered := 5
    success_rate := round2 (successRate ((5 : ℤ) : ℚ) ((10 : ℤ) : ℚ))
    first_delivery := 3
    last_delivery := 3 }

theorem ingest_counts (rows : List SrcRow) : ∀ i,
    (ingestRowsFrom i rows).records.length + (ingestRowsFrom i rows).skipped
      = rows.length := by
  induction rows with
  | nil => intro i; rfl
  | cons row rows ih =>
      intro i
      have h := ih (i + 1)
      simp only [ingestRowsFrom]
      split
      · simp only [List.length_cons]
        omega
      · cases row.build <;> simp only [List.length_cons, List.length] <;> omega

theorem chunksOfGo_sum_length {α : Type} (n : ℕ) :
    ∀ (fuel : ℕ) (l : List α), l.length ≤ fuel →
      ((chunksOfGo n fuel l).map List.length).sum = l.length := by
  intro fuel
  induction fuel with
  | zero =>
      intro l h
      cases l with
      | nil => rfl
      | cons x xs => simp at h
  | succ fuel ih =>
      intro l h
      cases l with
      | nil => rfl
      | cons x xs =>
          simp only [chunksOfGo, List.map_cons, List.sum_cons, List.length_cons]
          rw [ih (xs.drop (n - 1)) (by simp only [List.length_drop]; simp at h; omega)]
          simp only [List.length_cons, List.length_take, List.length_drop]
          omega

theorem chunksOf_sum_length {α : Type} (n : ℕ) (l : List α) :
    ((chunksOf n l).map List.length).sum = l.length :=
  chunksOfGo_sum_length n l.length l le_rfl

theorem mapDeliveries_counts (cm zm : List (String × ℕ)) (records : List DeliveryImport) :
    ∀ i, (mapDeliveriesFrom cm zm i records).upserts.length +
      (mapDeliveriesFrom cm zm i records).skipped = records.length := by
  induction records with
  | nil => intro i; rfl
  | cons r rs ih =>
      intro i
      have h := ih (i + 1)
      simp only [mapDeliveriesFrom]
      split <;> simp only [List.length_cons] <;> omega


theorem persistCatch_spec (fail : ℕ → Option String) :
    ∀ (chunks : List (List ℕ)) (k : ℕ),
      (persistCatch fail k chunks).1 =
        ((List.enumFrom k chunks).filter (fun p => (fail p.1).isNone)).map Prod.snd ∧
      (persistCatch fail k chunks).2 =
        (List.enumFrom k chunks).filterMap
          (fun p => (fail p.1).map (fun m => "Batch insert error: " ++ m)) := by
  intro chunks
  induction chunks with
  | nil => intro k; exact ⟨rfl, rfl⟩
  | cons c cs ih =>
      intro k
      have h := ih (k + 1)
      simp only [persistCatch, List.enumFrom, List.filter_cons, List.filterMap_cons]
      cases hf : fail k <;>
        simp only [hf, Option.isNone_none, Option.isNone_some, Option.map_none, Option.map_some] <;>
        simp only [List.map_cons, h.1, h.2] <;> constructor <;> rfl

theorem persistNoCatch_fail (fail : ℕ → Option String) :
    ∀ (chunks : List (List ℕ)) (k j : ℕ) (msg : String),
      (∀ t, t < j → fail (k + t) = none) → fail (k + j) = some msg →
      j < chunks.length →
        persistNoCatch fail k chunks = (chunks.take j, some msg) := by
  intro chunks
  induction chunks with
  | nil => intro k j msg _ _ hlen; simp at hlen
  | cons c cs ih =>
      intro k j msg hnone hj hlen
      cases j with
      | zero =>
          simp only [persistNoCatch]
          rw [show k + 0 = k from rfl] at hj
          simp [hj]
      | succ j' =>
          have h0 : fail k = none := by
            have := hnone 0 (Nat.succ_pos j')
            simpa using this
          simp only [persistNoCatch, h0]
          have hrec := ih (k + 1) j' msg
            (fun t ht => by
              have := hnone (t + 1) (by omega)
              rwa [show k + (t + 1) = k + 1 + t by omega] at this)
            (by rwa [show k + 1 + j' = k + (j' + 1) by omega])
            (by simp only [List.length_cons] at hlen; omega)
          rw [hrec]
          simp [List.take]

theorem dictGet_append (m n : List (String × ℕ)) (k : String) :
    dictGet (m ++ n) k = ((dictGet n k).or (dictGet m k)) := by
  simp only [dictGet, List.reverse_append, List.find?_append]
  cases hn : n.reverse.find? (fun p => p.1 == k) <;>
    simp [Option.or, hn]

theorem newKeys_acc_mono (m : List (String × ℕ)) (ks : List String) :
    ∀ (acc : List String) (x : String), x ∈ acc →
      x ∈ ks.foldl (fun acc k =>
        if (dictGet m k).isSome || acc.contains k then acc else acc ++ [k]) acc := by
  induction ks with
  | nil => intro acc x hx; exact hx
  | cons k ks ih =>
      intro acc x hx
      simp only [List.foldl_cons]
      apply ih
      split
      · exact hx
      · exact List.mem_append_left _ hx

theorem mem_newKeys_aux (m : List (String × ℕ)) (ks : List String) :
    ∀ (acc : List String) (k : String), k ∈ ks → (dictGet m k).isSome = false →
      k ∈ ks.foldl (fun acc k =>
        if (dictGet m k).isSome || acc.contains k then acc else acc ++ [k]) acc := by
  induction ks with
  | nil => intro acc k hk; simp at hk
  | cons k0 ks ih =>
      intro acc k hk hns
      rcases List.mem_cons.mp hk with hk | hk
      · subst hk
        simp only [List.foldl_cons]
        by_cases hc : acc.contains k
        · apply newKeys_acc_mono
          simp only [hns, Bool.false_or, hc, if_true]
          simpa using hc
        · apply newKeys_acc_mono
          simp only [hns, Bool.false_or, hc, if_false]
          exact List.mem_append_right _ (List.mem_singleton.mpr rfl)
      · exact ih _ k hk hns

theorem mem_newKeys (m : List (String × ℕ)) (ks : List String) (k : String)
    (hk : k ∈ ks) (hns : (dictGet m k).isSome = false) : k ∈ newKeys m ks :=
  mem_newKeys_aux m ks [] k hk hns

theorem dictGet_isSome_of_mem_keys (m : List (String × ℕ)) (k : String)
    (h : ∃ v, (k, v) ∈ m) : (dictGet m k).isSome = true := by
  obtain ⟨v, hv⟩ := h
  have hf : (m.reverse.find? (fun p => p.1 == k)).isSome = true :=
    List.find?_isSome.mpr ⟨(k, v), List.mem_reverse.mpr hv, by simp⟩
  cases hfe : m.reverse.find? (fun p => p.1 == k) with
  | none => rw [hfe] at hf; simp at hf
  | some p => simp [dictGet, hfe]

theorem mem_enumFrom_map (base : ℕ) (ns : List String) (k : String) :
    ∀ st, k ∈ ns →
      ∃ v, (k, v) ∈ (List.enumFrom st ns).map (fun p => (p.2, base + p.1)) := by
  induction ns with
  | nil => intro st hk; simp at hk
  | cons n ns ih =>
      intro st hk
      rcases List.mem_cons.mp hk with hk | hk
      · subst hk
        exact ⟨base + st, by simp [List.enumFrom]⟩
      · obtain ⟨v, hv⟩ := ih (st + 1) hk
        exact ⟨v, by simp only [List.enumFrom, List.map_cons]; exact List.mem_cons_of_mem _ hv⟩

theorem resolveMap_isSome (existing : List (String × ℕ)) (ks : List String)
    (base : ℕ) (k : String) (hk : k ∈ ks) :
    (dictGet (resolveMap existing ks base) k).isSome = true := by
  rw [resolveMap, dictGet_append]
  cases hs : (dictGet existing k).isSome with
  | true =>
      cases he : dictGet ((List.enumFrom 0 (newKeys existing ks)).map
          (fun p => (p.2, base + p.1))) k <;>
        cases hex : dictGet existing k <;> simp_all [Option.or]
  | false =>
      have hmem : k ∈ newKeys existing ks := mem_newKeys existing ks k hk hs
      have hex := dictGet_isSome_of_mem_keys _ k (mem_enumFrom_map base _ k 0 hmem)
      cases he : dictGet ((List.enumFrom 0 (newKeys existing ks)).map
          (fun p => (p.2, base + p.1))) k <;> simp_all [Option.or]

theorem mapDeliveriesFrom_all_some (cm zm : List (String × ℕ))
    (records : List DeliveryImport)
    (h : ∀ r ∈ records, (dictGet cm (pyLower (pyStrip r.courier_name))).isSome = true ∧
        (dictGet zm (pyLower (pyStrip r.zone_name))).isSome = true) :
    ∀ i, (mapDeliveriesFrom cm zm i records).skipped = 0 ∧
      (mapDeliveriesFrom cm zm i records).errors = [] ∧
      (mapDeliveriesFrom cm zm i records).upserts.length = records.length := by
  induction records with
  | nil => intro i; exact ⟨rfl, rfl, rfl⟩
  | cons r rs ih =>
      intro i
      have hr := h r (List.mem_cons_self r rs)
      obtain ⟨cid, hcid⟩ := Option.isSome_iff_exists.mp hr.1
      obtain ⟨zid, hzid⟩ := Option.isSome_iff_exists.mp hr.2
      have hrest := ih (fun x hx => h x (List.mem_cons_of_mem r hx)) (i + 1)
      simp only [mapDeliveriesFrom, hcid, hzid]
      exact ⟨hrest.1, hrest.2.1, by simp [List.length_cons, hrest.2.2]⟩

theorem import_deliveries_shape (ec ez : List (String × ℕ))
    (records : List DeliveryImport) :
    (import_deliveries ec ez records).skipped_records = 0 ∧
    (import_deliveries ec ez records).errors = [] ∧
    (import_deliveries ec ez records).imported_records = records.length := by
  have hmap := mapDeliveriesFrom_all_some
    (resolveMap ec (records.map (fun r => pyLower (pyStrip r.courier_name))) 1)
    (resolveMap ez (records.map (fun r => pyLower (pyStrip r.zone_name))) 1)
    records
    (fun r hr => ⟨resolveMap_isSome _ _ _ _ (List.mem_map_of_mem _ hr),
                  resolveMap_isSome _ _ _ _ (List.mem_map_of_mem _ hr)⟩)
    0
  refine ⟨hmap.1, ?_, ?_⟩
  · simp only [import_deliveries, mapDeliveries]
    rw [hmap.2.1]
    rfl
  · simp only [import_deliveries, mapDeliveries, chunksOf_sum_length]
    exact hmap.2.2

/-- C1 counterexample: a DeliveryImport bulk-import row with loaded_count 0
and delivered_count 5 — so delivered_count > loaded_count — passes
validation, contradicting the claim that no delivery record with
delivered_count > loaded_count is ever accepted. -/
theorem c1_import_accepts_violation :
    (5 : ℤ) > 0 ∧ DeliveryImport.accepts 0 5 = true := by
  constructor <;> decide

/-- C1 (amended): a direct create (DeliveryBase, hence DeliveryCreate)
passes validation exactly when both counts are nonnegative and delivered
does not exceed loaded; a bulk-import row (DeliveryImport) validates only
nonnegativity of each count, so it accepts delivered_count > loaded_count. -/
theorem c1_validation_characterization (loaded delivered : ℤ) :
    (DeliveryBase.accepts loaded delivered = true ↔
      0 ≤ loaded ∧ 0 ≤ delivered ∧ delivered ≤ loaded) ∧
    (DeliveryImport.accepts loaded delivered = true ↔
      0 ≤ loaded ∧ 0 ≤ delivered) := by
  constructor
  · simp only [DeliveryBase.accepts, delivered_not_more_than_loaded,
      Bool.and_eq_true, decide_eq_true_eq]
    by_cases h : 0 ≤ loaded
    · simp only [h, if_true, Option.getD_some]
      tauto
    · simp only [h, if_false, Option.getD_none]
      tauto
  · simp only [DeliveryImport.accepts, Bool.and_eq_true, decide_eq_true_eq]

/-- C6 counterexample: with delivered = 2 and loaded = 1 (both
nonnegative), the success-rate expression yields 200, outside [0, 100],
contradicting the claim that it always lies in [0, 100] for any
loaded ≥ 0, delivered ≥ 0. -/
theorem c6_rate_above_100 :
    (0 : ℚ) ≤ 2 ∧ (0 : ℚ) ≤ 1 ∧ successRate 2 1 = 200 ∧
      ¬ successRate 2 1 ≤ 100 := by
  norm_num [successRate]

/-- C6 (amended): for nonnegative counts the success rate equals
delivered / loaded * 100 when loaded > 0 and is exactly 0 when loaded = 0,
and is always a nonnegative finite rational; it is bounded by 100 exactly
under the additional hypothesis delivered ≤ loaded (which the
DeliveryImport path does not enforce). -/
theorem c6_rate_characterization (delivered loaded : ℚ)
    (hd : 0 ≤ delivered) (hl : 0 ≤ loaded) :
    (loaded > 0 → successRate delivered loaded = delivered / loaded * 100) ∧
    (loaded = 0 → successRate delivered loaded = 0) ∧
    0 ≤ successRate delivered loaded ∧
    (delivered ≤ loaded → successRate delivered loaded ≤ 100) := by
  refine ⟨fun h => if_pos h, fun h => by simp [successRate, h], ?_, ?_⟩
  · unfold successRate
    split
    · positivity
    · exact le_refl 0
  · intro hdl
    unfold successRate
    split
    · rename_i h
      calc delivered / loaded * 100 ≤ 1 * 100 := by
            apply mul_le_mul_of_nonneg_right _ (by norm_num)
            exact (div_le_one h).mpr hdl
        _ = 100 := one_mul 100
    · norm_num

/-- C6 witness: the amended characterization applied at delivered = 5,
loaded = 10. -/
theorem c6_rate_characterization_witness :
    ((10 : ℚ) > 0 → successRate 5 10 = 5 / 10 * 100) ∧
    ((10 : ℚ) = 0 → successRate 5 10 = 0) ∧
    (0 : ℚ) ≤ successRate 5 10 ∧
    ((5 : ℚ) ≤ 10 → successRate 5 10 ≤ 100) :=
  c6_rate_characterization 5 10 (by norm_num) (by norm_num)

/-- C7: the period comparison uses the zero-baseline rule for the
loaded/delivered/courier deltas, computes success_rate_change as the
absolute point difference of the two rates, and on period1 totals
loaded 0 / delivered 0 versus period2 totals loaded 10 / delivered 5
(rates from the spec-modelled stored function) yields loaded_change 100.0
and success_rate_change 50.0. -/
theorem c7_compare_periods :
    (∀ n : ℚ, calc_change 0 n = if n > 0 then 100 else 0) ∧
    (∀ old new : ℚ, old ≠ 0 →
        calc_change old new = round2 ((new - old) / old * 100)) ∧
    (∀ s1 s2 : PeriodStats,
        (compare_changes s1 s2).loaded_change =
          calc_change s1.total_loaded s2.total_loaded ∧
        (compare_changes s1 s2).delivered_change =
          calc_change s1.total_delivered s2.total_delivered ∧
        (compare_changes s1 s2).couriers_change =
          calc_change s1.active_couriers s2.active_couriers ∧
        (compare_changes s1 s2).success_rate_change =
          round2 (s2.success_rate - s1.success_rate)) ∧
    (compare_changes (periodStatsOf 0 0 0 0) (periodStatsOf 10 5 3 2)).loaded_change
      = 100 ∧
    (compare_changes (periodStatsOf 0 0 0 0) (periodStatsOf 10 5 3 2)).success_rate_change
      = 50 := by
  refine ⟨fun n => by simp [calc_change], fun old new h => by simp [calc_change, h],
    fun s1 s2 => ⟨rfl, rfl, rfl, rfl⟩, ?_, ?_⟩
  · norm_num [compare_changes, periodStatsOf, calc_change]
  · norm_num [compare_changes, periodStatsOf, successRate, round2]

/-- C7 witness: the nonzero-baseline branch of the comparison applied at
old = 1, new = 3. -/
theorem c7_compare_periods_witness :
    calc_change 1 3 = round2 ((3 - 1) / 1 * 100) :=
  c7_compare_periods.2.1 1 3 (by norm_num)

/-- C8: parse_float is total — it returns 0 for missing and empty input,
passes numeric input through, and on string input cleans (comma to decimal
point, currency/percent markers and whitespace stripped) then parses with 0
as the unparsable fallback; in particular it maps the string
comma-one-five-space-EUR to 1.5, the empty string to 0 and the string abc
to 0. -/
theorem c8_parse_float_spec :
    parse_float .missing = 0 ∧
    (∀ q : ℚ, parse_float (.num q) = q) ∧
    (∀ s : String, s ≠ "" →
        parse_float (.str s) = (pyFloat (cleanNumericStr s)).getD 0) ∧
    parse_float (.str "1,5 EUR") = 3 / 2 ∧
    parse_float (.str "") = 0 ∧
    parse_float (.str "abc") = 0 := by
  refine ⟨rfl, fun q => rfl, ?_, ?_, by simp [parse_float], ?_⟩
  · intro s hs
    rw [parse_float, if_neg hs]
    cases h : pyFloat (cleanNumericStr s) <;> simp [h]
  · have h : cleanNumericStr "1,5 EUR" = "1.5" := by decide
    have h2 : pyFloatParts "1.5" = some (true, (1, 5, 1), 0) := by decide
    rw [parse_float, if_neg (by decide), h, pyFloat, h2]
    norm_num [assembleFloat]
  · have h : cleanNumericStr "abc" = "abc" := by decide
    have h2 : pyFloatParts "abc" = none := by decide
    rw [parse_float, if_neg (by decide), pyFloat, h, h2]
    rfl

/-- C8 witness: the string branch of the specification applied at the
one-character numeric string 7. -/
theorem c8_parse_float_spec_witness :
    parse_float (.str "7") = (pyFloat (cleanNumericStr "7")).getD 0 :=
  c8_parse_float_spec.2.2.1 "7" (by decide)

/-- C2 counterexample: in the deliveries bulk import, a record whose
courier name is the literal string nan is not skipped — a courier of that
name is created and the record is imported (imported 1, skipped 0, no
errors), contradicting the claim that such a row is counted as skipped in
every import entry point. -/
theorem c2_nan_courier_imported :
    pyStrip "nan" = "nan" ∧
    import_deliveries [] [] [⟨0, "nan", none, "Z", 1, 1⟩] =
      { success := true, total_records := 1, imported_records := 1,
        skipped_records := 0, errors := [] } := by
  constructor <;> decide

/-- C2 (amended): in the shipment and event spreadsheet imports, a row
whose stripped key is empty or the literal nan is counted as skipped and
adds no error, and a row whose model construction raises is recorded as an
error (and also counted in skipped_records); neither outcome stops the
scan of the remaining rows.  The deliveries bulk import has no such
primary-key skip rule: on the success path of the store nothing is skipped
and no error is recorded — a record with empty or nan courier name simply
resolves (creating the entity) and is imported. -/
theorem c2_skip_vs_error :
    (∀ (i : ℕ) (row : SrcRow) (rows : List SrcRow),
        (pyStrip row.shipment_number = "" ∨ pyStrip row.shipment_number = "nan") →
          ingestRowsFrom i (row :: rows) =
            { ingestRowsFrom (i + 1) rows with
                skipped := (ingestRowsFrom (i + 1) rows).skipped + 1 }) ∧
    (∀ (i : ℕ) (row : SrcRow) (rows : List SrcRow) (msg : String),
        pyStrip row.shipment_number ≠ "" → pyStrip row.shipment_number ≠ "nan" →
        row.build = .exn msg →
          ingestRowsFrom i (row :: rows) =
            { ingestRowsFrom (i + 1) rows with
                errors := ("Row " ++ toString (i + 2) ++ ": " ++ msg)
                  :: (ingestRowsFrom (i + 1) rows).errors,
                skipped := (ingestRowsFrom (i + 1) rows).skipped + 1 }) ∧
    (∀ (ec ez : List (String × ℕ)) (records : List DeliveryImport),
        (import_deliveries ec ez records).skipped_records = 0 ∧
        (import_deliveries ec ez records).errors = []) := by
  refine ⟨?_, ?_, fun ec ez records =>
    ⟨(import_deliveries_shape ec ez records).1,
     (import_deliveries_shape ec ez records).2.1⟩⟩
  · intro i row rows h
    simp only [ingestRowsFrom]
    rcases h with h | h <;> simp [h]
  · intro i row rows msg h1 h2 hb
    simp only [ingestRowsFrom, hb]
    simp [h1, h2]

/-- C2 witness: the skip branch applied to a concrete nan-keyed row, and
the error branch applied to a concrete raising row at index 0. -/
theorem c2_skip_vs_error_witness :
    ingestRowsFrom 0 [⟨"nan", RowBuild.ok⟩] =
      { ingestRowsFrom 1 [] with skipped := (ingestRowsFrom 1 []).skipped + 1 } ∧
    ingestRowsFrom 0 [⟨"S", RowBuild.exn "bad"⟩] =
      { ingestRowsFrom 1 [] with
          errors := ("Row " ++ toString (0 + 2) ++ ": " ++ "bad")
            :: (ingestRowsFrom 1 []).errors,
          skipped := (ingestRowsFrom 1 []).skipped + 1 } :=
  ⟨c2_skip_vs_error.1 0 ⟨"nan", RowBuild.ok⟩ [] (Or.inr (by decide)),
   c2_skip_vs_error.2.1 0 ⟨"S", RowBuild.exn "bad"⟩ [] "bad"
     (by decide) (by decide) rfl⟩

/-- C5 counterexample: in the deliveries bulk import, the first data record
(0-based index 0) that fails courier/zone mapping is tagged Row 1, not
Row 2, contradicting the claim that every import entry point tags data row
i as Row i+2. -/
theorem c5_deliveries_row_tag_off_by_one :
    (mapDeliveries [] [] [⟨0, "A", none, "Z", 1, 1⟩]).errors =
      ["Row 1: Failed to map courier or zone"] ∧
    ("Row 1: Failed to map courier or zone" : String) ≠
      "Row 2: Failed to map courier or zone" := by
  constructor <;> decide

/-- C5 (amended): the spreadsheet imports (shipments, events) tag the
error of 0-based dataframe row i with Row i+2 (one-based plus the header
row), while the deliveries bulk import tags its 0-based record i with
Row i+1 — no header shift. -/
theorem c5_row_tagging :
    (∀ (i : ℕ) (row : SrcRow) (rows : List SrcRow) (msg : String),
        pyStrip row.shipment_number ≠ "" → pyStrip row.shipment_number ≠ "nan" →
        row.build = .exn msg →
          (ingestRowsFrom i (row :: rows)).errors =
            ("Row " ++ toString (i + 2) ++ ": " ++ msg)
              :: (ingestRowsFrom (i + 1) rows).errors) ∧
    (∀ (i : ℕ) (r : DeliveryImport) (rs : List DeliveryImport)
        (cm zm : List (String × ℕ)),
        dictGet cm (pyLower (pyStrip r.courier_name)) = none →
          (mapDeliveriesFrom cm zm i (r :: rs)).errors =
            ("Row " ++ toString (i + 1) ++ ": Failed to map courier or zone")
              :: (mapDeliveriesFrom cm zm (i + 1) rs).errors) := by
  constructor
  · intro i row rows msg h1 h2 hb
    simp only [ingestRowsFrom, hb]
    simp [h1, h2]
  · intro i r rs cm zm h
    simp only [mapDeliveriesFrom, h]

/-- C5 witness: the spreadsheet tag at row index 3 (reported as Row 5) and
the deliveries tag at record index 3 (reported as Row 4). -/
theorem c5_row_tagging_witness :
    (ingestRowsFrom 3 [⟨"S", RowBuild.exn "bad"⟩]).errors =
      ("Row " ++ toString (3 + 2) ++ ": " ++ "bad") :: (ingestRowsFrom 4 []).errors ∧
    (mapDeliveriesFrom [] [] 3 [⟨0, "A", none, "Z", 1, 1⟩]).errors =
      ("Row " ++ toString (3 + 1) ++ ": Failed to map courier or zone")
        :: (mapDeliveriesFrom [] [] 4 []).errors :=
  ⟨c5_row_tagging.1 3 ⟨"S", RowBuild.exn "bad"⟩ [] "bad" (by decide) (by decide) rfl,
   c5_row_tagging.2 3 ⟨0, "A", none, "Z", 1, 1⟩ [] [] [] (by decide)⟩

/-- C3 counterexample: the courier-performance bulk import, given 11
records whose dump raises, returns all 11 error strings — its errors list
is not capped at 10, contradicting the claim that every bulk-import call
returns at most 10 error entries. -/
theorem c3_bulk_import_uncapped :
    (bulk_import none (List.replicate 11 ⟨RowBuild.exn "bad"⟩)).errors.length = 11 ∧
    ¬ (bulk_import none (List.replicate 11 ⟨RowBuild.exn "bad"⟩)).errors.length ≤ 10 := by
  constructor <;> decide

/-- C3 (amended): the three ImportResult-returning imports (shipments,
events, deliveries) cap the returned error list at 10 entries while
total/imported/skipped are the exact tallies over all rows; the
courier-performance bulk import instead returns the full error list, its
length always equal to the exact failed count. -/
theorem c3_error_capping :
    (∀ (fail : ℕ → Option String) (rows : List SrcRow) (r : ImportResult)
        (st : List (List ℕ)),
        import_shipments fail rows = (Except.ok r, st) →
          r.errors.length ≤ 10 ∧ r.total_records = rows.length ∧
          r.imported_records = (ingestRows rows).records.length ∧
          r.skipped_records = (ingestRows rows).skipped) ∧
    (∀ (fail : ℕ → Option String) (rows : List SrcRow),
        (import_events fail rows).1.errors.length ≤ 10 ∧
        (import_events fail rows).1.total_records = rows.length ∧
        (import_events fail rows).1.imported_records = (ingestRows rows).records.length ∧
        (import_events fail rows).1.skipped_records = (ingestRows rows).skipped) ∧
    (∀ (ec ez : List (String × ℕ)) (records : List DeliveryImport),
        (import_deliveries ec ez records).errors.length ≤ 10 ∧
        (import_deliveries ec ez records).total_records = records.length) ∧
    (∀ (insertFail : Option String) (rows : List PerfRow),
        (bulk_import insertFail rows).errors.length = (bulk_import insertFail rows).failed) := by
  refine ⟨?_, ?_, ?_, fun insertFail rows => rfl⟩
  · intro fail rows r st h
    simp only [import_shipments] at h
    cases hp : (persistNoCatch fail 0 (chunksOf 500 (ingestRows rows).records)).2 with
    | some msg => rw [hp] at h; simp at h
    | none =>
        rw [hp] at h
        simp only [Prod.mk.injEq, Except.ok.injEq] at h
        rw [← h.1]
        refine ⟨List.length_take_le 10 _, rfl, rfl, rfl⟩
  · intro fail rows
    exact ⟨List.length_take_le 10 _, rfl, rfl, rfl⟩
  · intro ec ez records
    refine ⟨?_, rfl⟩
    simp only [import_deliveries]
    exact List.length_take_le 10 _

/-- C3 witness: the shipments cap applied to a concrete one-row import with
a store that never fails. -/
theorem c3_error_capping_witness :
    ({ success := true, total_records := 1, imported_records := 1,
       skipped_records := 0, errors := [] } : ImportResult).errors.length ≤ 10 ∧
    ({ success := true, total_records := 1, imported_records := 1,
       skipped_records := 0, errors := [] } : ImportResult).total_records = [(⟨"S", RowBuild.ok⟩ : SrcRow)].length ∧
    ({ success := true, total_records := 1, imported_records := 1,
       skipped_records := 0, errors := [] } : ImportResult).imported_records = (ingestRows [⟨"S", RowBuild.ok⟩]).records.length ∧
    ({ success := true, total_records := 1, imported_records := 1,
       skipped_records := 0, errors := [] } : ImportResult).skipped_records = (ingestRows [⟨"S", RowBuild.ok⟩]).skipped :=
  c3_error_capping.1 (fun _ => none) [⟨"S", RowBuild.ok⟩]
    { success := true, total_records := 1, imported_records := 1,
      skipped_records := 0, errors := [] } [[0]] (by rfl)

set_option maxRecDepth 100000 in
/-- C4 counterexample: importing 501 shipment rows (two chunks of 500 and
1) against a store whose first persistence call fails: the call aborts with
the raised message — no ImportResult, no Batch-insert-error string, no
chunk committed and the second chunk never attempted — contradicting the
claim that every chunked bulk import captures a chunk failure and
continues with the next chunk. -/
theorem c4_shipments_abort_on_chunk_failure :
    import_shipments (fun k => if k = 0 then some "db down" else none)
        (List.replicate 501 ⟨"S", RowBuild.ok⟩) =
      (Except.error "db down", []) := by rfl

/-- C4 (amended): in import_events each chunk persistence call is guarded —
exactly the chunks whose call succeeded are committed (those before and
after a failure), each failure is captured as a Batch-insert-error string
appended after the row errors, and the returned counts are unaffected.  In
import_shipments the loop is unguarded: the first failing call (index j,
all earlier calls succeeding) aborts the call with the raised message, the
j chunks already persisted staying committed and later chunks never
attempted. -/
theorem c4_chunk_failure_handling :
    (∀ (fail : ℕ → Option String) (rows : List SrcRow),
        (import_events fail rows).2 =
          ((List.enumFrom 0 (chunksOf 500 (ingestRows rows).records)).filter
            (fun p => (fail p.1).isNone)).map Prod.snd ∧
        (import_events fail rows).1.errors =
          ((ingestRows rows).errors ++
            (List.enumFrom 0 (chunksOf 500 (ingestRows rows).records)).filterMap
              (fun p => (fail p.1).map (fun m => "Batch insert error: " ++ m))).take 10 ∧
        (import_events fail rows).1.total_records = rows.length ∧
        (import_events fail rows).1.imported_records = (ingestRows rows).records.length ∧
        (import_events fail rows).1.skipped_records = (ingestRows rows).skipped) ∧
    (∀ (fail : ℕ → Option String) (rows : List SrcRow) (j : ℕ) (msg : String),
        (∀ t, t < j → fail t = none) → fail j = some msg →
        j < (chunksOf 500 (ingestRows rows).records).length →
          import_shipments fail rows =
            (Except.error msg, (chunksOf 500 (ingestRows rows).records).take j)) := by
  constructor
  · intro fail rows
    have hs := persistCatch_spec fail (chunksOf 500 (ingestRows rows).records) 0
    refine ⟨hs.1, ?_, rfl, rfl, rfl⟩
    simp only [import_events, hs.2]
  · intro fail rows j msg hnone hj hlen
    have hp := persistNoCatch_fail fail (chunksOf 500 (ingestRows rows).records) 0 j msg
      (fun t ht => by simpa using hnone t ht) (by simpa using hj) hlen
    simp only [import_shipments, hp]

/-- C4 witness: the events characterization on a one-row import whose only
chunk insert fails, and the shipments abort applied at failing call 0 on a
one-row import. -/
theorem c4_chunk_failure_handling_witness :
    ((import_events (fun _ => some "boom") [⟨"S", RowBuild.ok⟩]).2 =
        ((List.enumFrom 0 (chunksOf 500 (ingestRows [⟨"S", RowBuild.ok⟩]).records)).filter
          (fun p => ((fun _ => some "boom") p.1).isNone)).map Prod.snd ∧
      (import_events (fun _ => some "boom") [⟨"S", RowBuild.ok⟩]).1.errors =
        ((ingestRows [⟨"S", RowBuild.ok⟩]).errors ++
          (List.enumFrom 0 (chunksOf 500 (ingestRows [⟨"S", RowBuild.ok⟩]).records)).filterMap
            (fun p => (((fun _ => some "boom") : ℕ → Option String) p.1).map
              (fun m => "Batch insert error: " ++ m))).take 10 ∧
      (import_events (fun _ => some "boom") [⟨"S", RowBuild.ok⟩]).1.total_records =
        [(⟨"S", RowBuild.ok⟩ : SrcRow)].length ∧
      (import_events (fun _ => some "boom") [⟨"S", RowBuild.ok⟩]).1.imported_records =
        (ingestRows [⟨"S", RowBuild.ok⟩]).records.length ∧
      (import_events (fun _ => some "boom") [⟨"S", RowBuild.ok⟩]).1.skipped_records =
        (ingestRows [⟨"S", RowBuild.ok⟩]).skipped) ∧
    import_shipments (fun _ => some "boom") [⟨"S", RowBuild.ok⟩] =
      (Except.error "boom",
        (chunksOf 500 (ingestRows [⟨"S", RowBuild.ok⟩]).records).take 0) :=
  ⟨c4_chunk_failure_handling.1 (fun _ => some "boom") [⟨"S", RowBuild.ok⟩],
   c4_chunk_failure_handling.2 (fun _ => some "boom") [⟨"S", RowBuild.ok⟩] 0 "boom"
     (fun t ht => absurd ht (Nat.not_lt_zero t)) rfl (by decide)⟩

/-- C9: in every import that returns an ImportResult — shipments (whenever
the call returns a result rather than raising), events (always), and
deliveries — the returned counts satisfy
total_records = imported_records + skipped_records. -/
theorem c9_count_invariant :
    (∀ (fail : ℕ → Option String) (rows : List SrcRow) (r : ImportResult)
        (st : List (List ℕ)),
        import_shipments fail rows = (Except.ok r, st) →
          r.total_records = r.imported_records + r.skipped_records) ∧
    (∀ (fail : ℕ → Option String) (rows : List SrcRow),
        (import_events fail rows).1.total_records =
          (import_events fail rows).1.imported_records +
            (import_events fail rows).1.skipped_records) ∧
    (∀ (ec ez : List (String × ℕ)) (records : List DeliveryImport),
        (import_deliveries ec ez records).total_records =
          (import_deliveries ec ez records).imported_records +
            (import_deliveries ec ez records).skipped_records) := by
  refine ⟨?_, ?_, ?_⟩
  · intro fail rows r st h
    simp only [import_shipments] at h
    cases hp : (persistNoCatch fail 0 (chunksOf 500 (ingestRows rows).records)).2 with
    | some msg => rw [hp] at h; simp at h
    | none =>
        rw [hp] at h
        simp only [Prod.mk.injEq, Except.ok.injEq] at h
        rw [← h.1]
        exact (ingest_counts rows 0).symm
  · intro fail rows
    exact (ingest_counts rows 0).symm
  · intro ec ez records
    have hs := import_deliveries_shape ec ez records
    simp only [hs.1, hs.2.2, Nat.add_zero]
    rfl

/-- C9 witness: the shipments count identity applied to a concrete
one-row import returning a result. -/
theorem c9_count_invariant_witness :
    ({ success := true, total_records := 1, imported_records := 1,
       skipped_records := 0, errors := [] } : ImportResult).total_records =
      ({ success := true, total_records := 1, imported_records := 1,
         skipped_records := 0, errors := [] } : ImportResult).imported_records +
        ({ success := true, total_records := 1, imported_records := 1,
           skipped_records := 0, errors := [] } : ImportResult).skipped_records :=
  c9_count_invariant.1 (fun _ => none) [⟨"S", RowBuild.ok⟩]
    { success := true, total_records := 1, imported_records := 1,
      skipped_records := 0, errors := [] } [[0]] (by rfl)

theorem assocFind_nil (cid : ℕ) : assocFind [] cid = none := rfl

theorem assocFind_cons (k : ℕ) (s : CStat) (rest : List (ℕ × CStat)) (cid : ℕ) :
    assocFind ((k, s) :: rest) cid = if k = cid then some s else assocFind rest cid := by
  by_cases h : k = cid
  · simp [assocFind, List.find?_cons, h]
  · simp [assocFind, List.find?_cons, h]

theorem assocFind_statsUpdate (d : DeliveryRow) (acc : List (ℕ × CStat)) (cid : ℕ) :
    assocFind (statsUpdate d acc) cid =
      if cid = d.courier_id then
        some (stepStat d ((assocFind acc d.courier_id).getD (initStat d)))
      else assocFind acc cid := by
  induction acc with
  | nil =>
      simp only [statsUpdate, assocFind_cons, assocFind_nil]
      by_cases h : cid = d.courier_id
      · simp [h]
      · rw [if_neg (fun hh => h hh.symm), if_neg h]
  | cons p rest ih =>
      obtain ⟨k, s⟩ := p
      simp only [statsUpdate]
      by_cases hk : k = d.courier_id <;> by_cases hc : k = cid <;>
        by_cases hcd : cid = d.courier_id <;>
        simp_all [assocFind_cons]

theorem mem_keys_statsUpdate (d : DeliveryRow) (acc : List (ℕ × CStat)) (x : ℕ)
    (hx : x ∈ (statsUpdate d acc).map Prod.fst) :
    x ∈ acc.map Prod.fst ∨ x = d.courier_id := by
  induction acc with
  | nil =>
      simp only [statsUpdate, List.map_cons, List.map_nil] at hx
      rcases List.mem_cons.mp hx with h | h
      · exact Or.inr h
      · simp at h
  | cons p rest ih =>
      obtain ⟨k, s⟩ := p
      by_cases hk : k = d.courier_id
      · simp only [statsUpdate, if_pos hk, List.map_cons] at hx
        simp only [List.map_cons]
        exact Or.inl hx
      · simp only [statsUpdate, if_neg hk, List.map_cons] at hx
        rcases List.mem_cons.mp hx with h | h
        · exact Or.inl (List.mem_cons.mpr (Or.inl h))
        · rcases ih h with h2 | h2
          · exact Or.inl (List.mem_cons.mpr (Or.inr h2))
          · exact Or.inr h2

theorem nodup_keys_statsUpdate (d : DeliveryRow) (acc : List (ℕ × CStat))
    (h : (acc.map Prod.fst).Nodup) : ((statsUpdate d acc).map Prod.fst).Nodup := by
  induction acc with
  | nil => simp [statsUpdate]
  | cons p rest ih =>
      obtain ⟨k, s⟩ := p
      simp only [List.map_cons, List.nodup_cons] at h
      by_cases hk : k = d.courier_id
      · simp only [statsUpdate, if_pos hk, List.map_cons, List.nodup_cons]
        exact h
      · simp only [statsUpdate, if_neg hk, List.map_cons, List.nodup_cons]
        refine ⟨fun hmem => ?_, ih h.2⟩
        rcases mem_keys_statsUpdate d rest k hmem with h2 | h2
        · exact h.1 h2
        · exact hk h2

theorem nodup_keys_aggStats (ds : List DeliveryRow) :
    ((aggStats ds).map Prod.fst).Nodup := by
  suffices h : ∀ acc : List (ℕ × CStat), (acc.map Prod.fst).Nodup →
      ((ds.foldl (fun acc d => statsUpdate d acc) acc).map Prod.fst).Nodup from
    h [] (by simp)
  induction ds with
  | nil => intro acc hacc; exact hacc
  | cons d ds ih =>
      intro acc hacc
      exact ih (statsUpdate d acc) (nodup_keys_statsUpdate d acc hacc)

theorem assocFind_of_mem (acc : List (ℕ × CStat)) (cid : ℕ) (s : CStat)
    (hnd : (acc.map Prod.fst).Nodup) (hmem : (cid, s) ∈ acc) :
    assocFind acc cid = some s := by
  induction acc with
  | nil => simp at hmem
  | cons p rest ih =>
      obtain ⟨k, t⟩ := p
      simp only [List.map_cons, List.nodup_cons] at hnd
      rcases List.mem_cons.mp hmem with h | h
      · simp only [Prod.mk.injEq] at h
        obtain ⟨rfl, rfl⟩ := h
        rw [assocFind_cons, if_pos rfl]
      · have hk : ¬ k = cid := by
          intro hkc
          subst hkc
          exact hnd.1 (List.mem_map.mpr ⟨(k, s), h, rfl⟩)
        rw [assocFind_cons, if_neg hk]
        exact ih hnd.2 h

theorem statOfRows_append (d : DeliveryRow) (rest : List DeliveryRow) (x : DeliveryRow) :
    statOfRows d (rest ++ [x]) = stepStat x (statOfRows d rest) := by
  simp [statOfRows, List.foldl_append]

theorem filterStat_append (P : List DeliveryRow) (d : DeliveryRow) (cid : ℕ) :
    filterStat (P ++ [d]) cid =
      if cid = d.courier_id then
        some (stepStat d ((filterStat P cid).getD (initStat d)))
      else filterStat P cid := by
  by_cases h : cid = d.courier_id
  · rw [if_pos h]
    have hd : (List.filter (fun x => x.courier_id == cid) [d]) = [d] := by
      simp [List.filter, h]
    rw [filterStat, List.filter_append, hd]
    cases hP : P.filter (fun x => x.courier_id == cid) with
    | nil => simp [filterStat, hP, statOfRows]
    | cons p rest =>
        simp only [filterStat, hP, List.cons_append, Option.getD_some]
        rw [statOfRows_append]
  · rw [if_neg h]
    have hd : (List.filter (fun x => x.courier_id == cid) [d]) = [] := by
      have hb : (d.courier_id == cid) = false := by
        simp only [beq_eq_false_iff_ne, ne_eq]
        exact fun hh => h hh.symm
      simp [List.filter, hb]
    rw [filterStat, List.filter_append, hd, List.append_nil]
    rfl

theorem agg_spec_aux :
    ∀ (ds : List DeliveryRow) (acc : List (ℕ × CStat)) (P : List DeliveryRow),
      (∀ cid, assocFind acc cid = filterStat P cid) →
      ∀ cid, assocFind (ds.foldl (fun acc d => statsUpdate d acc) acc) cid =
        filterStat (P ++ ds) cid := by
  intro ds
  induction ds with
  | nil => intro acc P h cid; simpa using h cid
  | cons d ds ih =>
      intro acc P h cid
      simp only [List.foldl_cons]
      have hstep : ∀ c, assocFind (statsUpdate d acc) c = filterStat (P ++ [d]) c := by
        intro c
        by_cases hc : c = d.courier_id
        · subst hc
          rw [assocFind_statsUpdate, filterStat_append]
          simp [h]
        · rw [assocFind_statsUpdate, filterStat_append, if_neg hc, if_neg hc, h c]
      have := ih (statsUpdate d acc) (P ++ [d]) hstep cid
      rwa [List.append_assoc, List.singleton_append] at this

theorem agg_spec (ds : List DeliveryRow) (cid : ℕ) :
    assocFind (aggStats ds) cid = filterStat ds cid := by
  have := agg_spec_aux ds [] [] (fun c => rfl) cid
  simpa using this

theorem statOfRows_props (d : DeliveryRow) (rest : List DeliveryRow) :
    1 ≤ (statOfRows d rest).total_deliveries ∧
    (statOfRows d rest).first_delivery ≤ (statOfRows d rest).last_delivery ∧
    (∃ x ∈ d :: rest, x.delivery_date = (statOfRows d rest).first_delivery) ∧
    (∃ x ∈ d :: rest, x.delivery_date = (statOfRows d rest).last_delivery) ∧
    (∀ x ∈ d :: rest, (statOfRows d rest).first_delivery ≤ x.delivery_date ∧
        x.delivery_date ≤ (statOfRows d rest).last_delivery) := by
  induction rest using List.reverseRecOn with
  | nil =>
      refine ⟨by simp [statOfRows, stepStat, initStat], ?_, ?_, ?_, ?_⟩
      · simp [statOfRows, stepStat, initStat]
      · exact ⟨d, by simp, by simp [statOfRows, stepStat, initStat]⟩
      · exact ⟨d, by simp, by simp [statOfRows, stepStat, initStat]⟩
      · intro x hx
        simp only [List.mem_singleton] at hx
        subst hx
        simp [statOfRows, stepStat, initStat]
  | append_singleton rest y ih =>
      obtain ⟨ih1, ih2, ⟨xf, hxf, hxf2⟩, ⟨xl, hxl, hxl2⟩, ihb⟩ := ih
      have hmem : ∀ z : DeliveryRow, z ∈ d :: rest → z ∈ d :: (rest ++ [y]) := by
        intro z hz
        rcases List.mem_cons.mp hz with h | h
        · exact List.mem_cons.mpr (Or.inl h)
        · exact List.mem_cons.mpr (Or.inr (List.mem_append_left _ h))
      have hymem : y ∈ d :: (rest ++ [y]) :=
        List.mem_cons.mpr (Or.inr (List.mem_append_right _ (List.mem_singleton.mpr rfl)))
      rw [statOfRows_append]
      refine ⟨?_, ?_, ?_, ?_, ?_⟩
      · simp only [stepStat]
        omega
      · simp only [stepStat]
        split <;> split <;> omega
      · simp only [stepStat]
        split
        · exact ⟨y, hymem, rfl⟩
        · exact ⟨xf, hmem xf hxf, hxf2⟩
      · simp only [stepStat]
        split
        · exact ⟨y, hymem, rfl⟩
        · exact ⟨xl, hmem xl hxl, hxl2⟩
      · intro x hx
        have hxcases : x = y ∨ x ∈ d :: rest := by
          rcases List.mem_cons.mp hx with h | h
          · exact Or.inr (List.mem_cons.mpr (Or.inl h))
          · rcases List.mem_append.mp h with h2 | h2
            · exact Or.inr (List.mem_cons.mpr (Or.inr h2))
            · exact Or.inl (List.mem_singleton.mp h2)
        rcases hxcases with hx2 | hx2
        · subst hx2
          simp only [stepStat]
          constructor
          · split <;> omega
          · split <;> omega
        · have hb := ihb x hx2
          simp only [stepStat]
          constructor
          · split <;> omega
          · split <;> omega

theorem mem_buildCourierStats (couriers : List Courier) (minD : ℕ)
    (entries : List (ℕ × CStat)) (e : CourierStats)
    (he : e ∈ buildCourierStats couriers minD entries) :
    ∃ cid s c, (cid, s) ∈ entries ∧ ¬ s.total_deliveries < minD ∧
      courierLookup couriers cid = some c ∧
      e.id = cid ∧ e.total_deliveries = s.total_deliveries ∧
      e.first_delivery = s.first_delivery ∧ e.last_delivery = s.last_delivery := by
  induction entries with
  | nil => simp [buildCourierStats] at he
  | cons p rest ih =>
      obtain ⟨cid, s⟩ := p
      by_cases hmin : s.total_deliveries < minD
      · rw [buildCourierStats, if_pos hmin] at he
        obtain ⟨cid2, s2, c2, hmem, h2, h3, h4⟩ := ih he
        exact ⟨cid2, s2, c2, List.mem_cons_of_mem _ hmem, h2, h3, h4⟩
      · rw [buildCourierStats, if_neg hmin] at he
        cases hl : courierLookup couriers cid with
        | none =>
            rw [hl] at he
            obtain ⟨cid2, s2, c2, hmem, h2, h3, h4⟩ := ih he
            exact ⟨cid2, s2, c2, List.mem_cons_of_mem _ hmem, h2, h3, h4⟩
        | some c =>
            rw [hl] at he
            rcases List.mem_cons.mp he with hh | hh
            · subst hh
              exact ⟨cid, s, c, List.mem_cons_self _ _, hmin, hl, rfl, rfl, rfl, rfl⟩
            · obtain ⟨cid2, s2, c2, hmem, h2, h3, h4⟩ := ih hh
              exact ⟨cid2, s2, c2, List.mem_cons_of_mem _ hmem, h2, h3, h4⟩

theorem courierLookup_mem (couriers : List Courier) (cid : ℕ) (c : Courier)
    (h : courierLookup couriers cid = some c) : c ∈ couriers ∧ c.id = cid := by
  have hmem := List.mem_of_find?_eq_some h
  have hp := List.find?_some h
  exact ⟨List.mem_reverse.mp hmem, by simpa using hp⟩

theorem mem_stableInsert (le : α → α → Bool) (x a : α) (l : List α) :
    a ∈ stableInsert le x l ↔ a = x ∨ a ∈ l := by
  induction l with
  | nil => simp [stableInsert]
  | cons y ys ih =>
      simp only [stableInsert]
      split
      · simp [List.mem_cons]
      · simp only [List.mem_cons, ih]
        tauto

theorem mem_stableSort (le : α → α → Bool) (a : α) (l : List α) :
    a ∈ stableSort le l ↔ a ∈ l := by
  induction l with
  | nil => simp [stableSort]
  | cons y ys ih =>
      simp only [stableSort, mem_stableInsert, List.mem_cons, ih]

theorem filter_eq_cons_props (ds : List DeliveryRow) (cid : ℕ)
    (d : DeliveryRow) (rest : List DeliveryRow)
    (h : ds.filter (fun x => x.courier_id == cid) = d :: rest) :
    (∀ x ∈ d :: rest, x ∈ ds ∧ x.courier_id = cid) ∧
    (∀ x ∈ ds, x.courier_id = cid → x ∈ d :: rest) := by
  constructor
  · intro x hx
    rw [← h] at hx
    have hm := List.mem_filter.mp hx
    exact ⟨hm.1, by simpa using hm.2⟩
  · intro x hx hcid
    rw [← h]
    exact List.mem_filter.mpr ⟨hx, by simpa using hcid⟩

/-- C10: every entry of the courier statistics has at least
max(1, min_deliveries) deliveries, a first delivery date no later than its
last (both attained by that courier's rows in the window, which they
bound), and refers to a courier of the master table. -/
theorem c10_courier_stats_invariants (deliveries : List DeliveryRow)
    (couriers : List Courier) (min_deliveries : ℕ) (e : CourierStats)
    (he : e ∈ get_courier_stats deliveries couriers min_deliveries) :
    max 1 min_deliveries ≤ e.total_deliveries ∧
    e.first_delivery ≤ e.last_delivery ∧
    (∃ c ∈ couriers, c.id = e.id) ∧
    (∃ d ∈ deliveries, d.courier_id = e.id ∧ d.delivery_date = e.first_delivery) ∧
    (∃ d ∈ deliveries, d.courier_id = e.id ∧ d.delivery_date = e.last_delivery) ∧
    (∀ d ∈ deliveries, d.courier_id = e.id →
        e.first_delivery ≤ d.delivery_date ∧ d.delivery_date ≤ e.last_delivery) := by
  rw [get_courier_stats, mem_stableSort] at he
  obtain ⟨cid, s, c, hmem, hmin, hlook, hid, htot, hfst, hlst⟩ :=
    mem_buildCourierStats couriers min_deliveries (aggStats deliveries) e he
  have hfind := assocFind_of_mem _ _ _ (nodup_keys_aggStats deliveries) hmem
  rw [agg_spec] at hfind
  simp only [filterStat] at hfind
  cases hflt : deliveries.filter (fun x => x.courier_id == cid) with
  | nil => rw [hflt] at hfind; simp at hfind
  | cons d rest =>
      rw [hflt] at hfind
      simp only [Option.some.injEq] at hfind
      obtain ⟨hp1, hp2, ⟨xf, hxf, hxf2⟩, ⟨xl, hxl, hxl2⟩, hpb⟩ := statOfRows_props d rest
      obtain ⟨hsub, hsup⟩ := filter_eq_cons_props deliveries cid d rest hflt
      obtain ⟨hcmem, hcid⟩ := courierLookup_mem couriers cid c hlook
      rw [hfind] at hp1 hp2 hxf2 hxl2 hpb
      refine ⟨?_, ?_, ⟨c, hcmem, hcid.trans hid.symm⟩, ?_, ?_, ?_⟩
      · rw [htot]
        omega
      · rw [hfst, hlst]
        exact hp2
      · obtain ⟨hxfmem, hxfcid⟩ := hsub xf hxf
        exact ⟨xf, hxfmem, hxfcid.trans hid.symm, hxf2.trans hfst.symm⟩
      · obtain ⟨hxlmem, hxlcid⟩ := hsub xl hxl
        exact ⟨xl, hxlmem, hxlcid.trans hid.symm, hxl2.trans hlst.symm⟩
      · intro x hx hcidx
        have hxin : x ∈ d :: rest := hsup x hx (hcidx.trans hid)
        have hb := hpb x hxin
        rw [hfst, hlst]
        exact hb

/-- C10 witness: the invariants applied to the entry produced by one
delivery row of courier 1 with the courier present in the master table. -/
theorem c10_courier_stats_invariants_witness :
    max 1 0 ≤ c10entry.total_deliveries ∧
    c10entry.first_delivery ≤ c10entry.last_delivery ∧
    (∃ c ∈ [(⟨1, "A", none⟩ : Courier)], c.id = c10entry.id) ∧
    (∃ d ∈ [(⟨1, 10, 5, 3⟩ : DeliveryRow)],
        d.courier_id = c10entry.id ∧ d.delivery_date = c10entry.first_delivery) ∧
    (∃ d ∈ [(⟨1, 10, 5, 3⟩ : DeliveryRow)],
        d.courier_id = c10entry.id ∧ d.delivery_date = c10entry.last_delivery) ∧
    (∀ d ∈ [(⟨1, 10, 5, 3⟩ : DeliveryRow)], d.courier_id = c10entry.id →
        c10entry.first_delivery ≤ d.delivery_date ∧
          d.delivery_date ≤ c10entry.last_delivery) :=
  c10_courier_stats_invariants [⟨1, 10, 5, 3⟩] [⟨1, "A", none⟩] 0 c10entry
    (List.mem_singleton.mpr rfl)

end DeliveryAnalytics
